import Mathlib

/-!
Shallow embedding of `suit/admin.py` (django-suit): the sortable admin
mixin family (`SortableModelAdminBase`, `SortableListForm`,
`SortableChangeList`, `SortableTabularInlineBase`,
`SortableStackedInlineBase`, `SortableModelAdmin`) and the two optional
compatibility patch blocks at module load.

Python objects are modelled as immutable Lean values; in-place mutation
of an attribute becomes returning the updated value.  Optional / `None`
attributes are `Option`; Python truthiness of the values involved is
made explicit where the code branches on it.
-/

namespace Suit

/-- Python truthiness of an optional integer primary key, as tested by
`if not obj.pk:` — `None` and `0` are falsy, any other integer truthy. -/
def pkTruthy : Option Nat → Bool
  | none => false
  | some n => n != 0

/-- The `objects.aggregate(models.Max(self.sortable))` result over the
existing rows' sortable values: `None` when there are no rows, else the
maximum value. -/
def aggregateMaxOrder : List Int → Option Int
  | [] => none
  | x :: xs =>
    match aggregateMaxOrder xs with
    | none => some x
    | some m => some (max x m)

/-- The `try: next_order = max + 1 except TypeError: next_order = 1`
block: `None + 1` raises `TypeError`, caught and turned into `1`. -/
def nextOrderOf : Option Int → Int
  | none => 1
  | some m => m + 1

/-- A model instance as `save_model` sees it: a primary key (absent for
unsaved objects), the sortable attribute (`order`), and one unrelated
attribute standing for the rest of the object's state. -/
structure SortableObj where
  pk : Option Nat
  order : Int
  otherAttr : String
deriving Repr, DecidableEq

/-- `SortableModelAdmin.save_model`: when `not obj.pk`, aggregate the
maximum of the sortable field over the existing rows and set the
object's sortable attribute to max+1 (1 when the aggregate is `None`);
otherwise the object is passed through unchanged.  The returned value is
the object as handed to the framework's underlying save. -/
def save_model (rows : List Int) (obj : SortableObj) : SortableObj :=
  if ¬ pkTruthy obj.pk then
    { obj with order := nextOrderOf (aggregateMaxOrder rows) }
  else
    obj

/-- `SortableTabularInlineBase.__init__` on `self.fields`:
`self.fields = self.fields or []` followed by
`if self.fields and self.sortable not in self.fields: append`. -/
def initFieldsTabular (sortable : String) (fields : Option (List String)) :
    List String :=
  let fs := fields.getD []
  if fs ≠ [] ∧ sortable ∉ fs then fs ++ [sortable] else fs

/-- `SortableModelAdmin.__init__` on `self.list_display`:
`if self.list_display and self.sortable not in self.list_display:
append` — note no normalisation of `None` first. -/
def initListDisplay (sortable : String) (ld : Option (List String)) :
    Option (List String) :=
  match ld with
  | none => none
  | some l => if l ≠ [] ∧ sortable ∉ l then some (l ++ [sortable]) else some l

/-- `SortableModelAdmin.__init__` on `self.list_editable`:
`self.list_editable = self.list_editable or []` followed by
`if self.sortable not in self.list_editable: append`. -/
def initListEditable (sortable : String) (le : Option (List String)) :
    List String :=
  let l := le.getD []
  if sortable ∉ l then l ++ [sortable] else l

/-- `SortableModelAdmin.__init__` on `self.exclude`:
`self.exclude = self.exclude or []` followed by
`if self.sortable not in self.exclude: append`. -/
def initExclude (sortable : String) (ex : Option (List String)) :
    List String :=
  let l := ex.getD []
  if sortable ∉ l then l ++ [sortable] else l

/-- A fieldset as produced by the framework's `get_fieldsets`: a 2-tuple
of a group name (possibly `None`) and an options dict whose `fields` key
holds the field-name list.  Iterating the tuple yields the name (skipped
by `if not line or not isinstance(line, dict): continue`) and then the
dict. -/
structure Fieldset where
  name : Option String
  fields : List String
deriving Repr, DecidableEq, Inhabited

/-- The loop body of `SortableStackedInlineBase.get_fieldsets`, with the
`sortable_added` flag threaded through.  For each group's dict:
`if self.sortable in fields: fields.remove(self.sortable)` (Python
`list.remove` deletes only the first occurrence, as `List.erase` does),
then, while the flag is unset, `fields.insert(0, self.sortable)` and the
flag is set (the `break` only leaves the inner loop over the 2-tuple). -/
def processFieldsets (sortable : String) : Bool → List Fieldset → List Fieldset
  | _, [] => []
  | added, fs :: rest =>
    let fields1 :=
      if sortable ∈ fs.fields then fs.fields.erase sortable else fs.fields
    if added then
      { fs with fields := fields1 } :: processFieldsets sortable true rest
    else
      { fs with fields := sortable :: fields1 } ::
        processFieldsets sortable true rest

/-- `SortableStackedInlineBase.get_fieldsets`, applied to the fieldsets
returned by the superclass, starting with `sortable_added = False`. -/
def get_fieldsets (sortable : String) (fss : List Fieldset) : List Fieldset :=
  processFieldsets sortable false fss

/-- Total number of occurrences of a field name across all groups of a
fieldset list. -/
def countField (sortable : String) (fss : List Fieldset) : Nat :=
  (fss.map fun fs => fs.fields.count sortable).sum

/-- `SortableChangeList.get_ordering(self, request, queryset)`: the
request, the queryset and any ordering configured on the admin or model
are ignored; the result is always
`[self.model_admin.sortable, '-' + self.model._meta.pk.name]`. -/
def SortableChangeList.get_ordering (sortable pkName : String)
    (request : Nat) (queryset : List Int) (configuredOrdering : List String) :
    List String :=
  [sortable, "-" ++ pkName]

/-- The module-load patch blocks: each optional patch is applied exactly
when its package name is in `INSTALLED_APPS` and its import succeeds
(`try: import ... except ImportError: pass`).  The pair records whether
the CMS page-form widget swap and the content-status list-filter
injection were applied; the function is total, so module load completes
for every configuration. -/
def appliedPatches (installedApps : List String)
    (cmsImportOk contentStatusImportOk : Bool) : Bool × Bool :=
  ((if "cms" ∈ installedApps then
      if cmsImportOk then true else false
    else false),
   (if "content_status" ∈ installedApps then
      if contentStatusImportOk then true else false
    else false))

/-- Widget attributes as an insertion-ordered dict (assoc list). -/
def getAttr (attrs : List (String × String)) (k : String) : String :=
  ((attrs.find? fun p => p.1 == k).map Prod.snd).getD ""

/-- `attrs[k] = v`: overwrite in place when the key exists, else append. -/
def setAttr (attrs : List (String × String)) (k v : String) :
    List (String × String) :=
  if (attrs.find? fun p => p.1 == k).isSome then
    attrs.map fun p => if p.1 == k then (k, v) else p
  else
    attrs ++ [(k, v)]

/-- `SortableListForm.Meta.widgets['order']`, the shared order widget:
a `NumberInput` with `attrs={'class': 'hide input-mini suit-sortable'}`. -/
def orderWidgetAttrs : List (String × String) :=
  [("class", "hide input-mini suit-sortable")]

/-- `SortableStackedInlineBase.formfield_for_dbfield` on the sortable
field: `copy.deepcopy` the shared order widget, then mutate the copy's
attrs (`attrs['class'] += ' suit-sortable-stacked'`;
`attrs['rowclass'] = ' suit-sortable-stacked-row'`).  The result pairs
the widget handed to the form field with the shared widget's attrs after
the call — the mutations hit the deep copy, so the shared value comes
back as it went in. -/
def stackedFormfieldWidget (shared : List (String × String)) :
    List (String × String) × List (String × String) :=
  let w := shared
  let w := setAttr w "class" (getAttr w "class" ++ " suit-sortable-stacked")
  let w := setAttr w "rowclass" " suit-sortable-stacked-row"
  (w, shared)

/-- The shared widget attrs after `n` calls of
`SortableStackedInlineBase.formfield_for_dbfield` on the sortable
field. -/
def sharedAfterCalls : Nat → List (String × String) → List (String × String)
  | 0, shared => shared
  | n + 1, shared => sharedAfterCalls n (stackedFormfieldWidget shared).2

/-- C1: for a new object (`obj.pk` is `None`), when the aggregate
maximum of the sortable field over the existing rows is `N`,
`SortableModelAdmin.save_model` sets the object's sortable attribute to
`N + 1` before delegating to the underlying save. -/
theorem save_model_new_assigns_max_plus_one
    (rows : List Int) (obj : SortableObj) (N : Int)
    (hpk : obj.pk = none) (hmax : aggregateMaxOrder rows = some N) :
    (save_model rows obj).order = N + 1 := by
  simp [save_model, pkTruthy, hpk, hmax, nextOrderOf]

/-- Witness for C1 at rows `[3, 7, 5]` (maximum 7) and a fresh object:
the assigned order is 8. -/
theorem save_model_new_assigns_max_plus_one_witness :
    (⟨none, 0, "x"⟩ : SortableObj).pk = none ∧
    aggregateMaxOrder [3, 7, 5] = some 7 ∧
    (save_model [3, 7, 5] ⟨none, 0, "x"⟩).order = 7 + 1 :=
  ⟨rfl, by decide,
    save_model_new_assigns_max_plus_one [3, 7, 5] ⟨none, 0, "x"⟩ 7 rfl
      (by decide)⟩

/-- C2: `SortableChangeList.get_ordering` returns exactly
`[sortable, '-' + pk name]` for every request, queryset and configured
ordering. -/
theorem get_ordering_forces_sortable (sortable pkName : String)
    (request : Nat) (queryset : List Int) (configuredOrdering : List String) :
    SortableChangeList.get_ordering sortable pkName request queryset
        configuredOrdering = [sortable, "-" ++ pkName] :=
  rfl

/-- C5: for a new object when the aggregate maximum is absent (`None`),
the `TypeError` from `None + 1` is caught and the sortable attribute is
set to 1; `save_model` is a total function, so no exception escapes. -/
theorem save_model_first_row (rows : List Int) (obj : SortableObj)
    (hpk : obj.pk = none) (hmax : aggregateMaxOrder rows = none) :
    (save_model rows obj).order = 1 := by
  simp [save_model, pkTruthy, hpk, hmax, nextOrderOf]

/-- Witness for C5: with no existing rows the aggregate is `None` and a
fresh object receives order 1. -/
theorem save_model_first_row_witness :
    (⟨none, 0, "x"⟩ : SortableObj).pk = none ∧
    aggregateMaxOrder [] = none ∧
    (save_model [] ⟨none, 0, "x"⟩).order = 1 :=
  ⟨rfl, rfl, save_model_first_row [] ⟨none, 0, "x"⟩ rfl rfl⟩

/-- C7 counterexample: an object whose primary key is present but falsy
(`pk = 0`) has a primary key, yet `if not obj.pk:` treats it as new and
reassigns its sortable attribute (order 5 becomes 8 with rows `[7]`). -/
theorem save_model_existing_counterexample :
    (⟨some 0, 5, "x"⟩ : SortableObj).pk ≠ none ∧
    (save_model [7] ⟨some 0, 5, "x"⟩).order ≠ 5 := by
  refine ⟨by simp, by decide⟩

/-- C7 amended: whenever the object's primary key is truthy (present and
nonzero), `save_model` passes the object through entirely unchanged — no
attribute is modified before the underlying save. -/
theorem save_model_existing_unchanged (rows : List Int) (obj : SortableObj)
    (h : pkTruthy obj.pk = true) :
    save_model rows obj = obj := by
  simp [save_model, h]

/-- Witness for the amended C7: an object with pk 3 is untouched. -/
theorem save_model_existing_unchanged_witness :
    pkTruthy (some 3) = true ∧
    save_model [7] ⟨some 3, 5, "x"⟩ = ⟨some 3, 5, "x"⟩ :=
  ⟨rfl, save_model_existing_unchanged [7] ⟨some 3, 5, "x"⟩ rfl⟩

/-- C8: the initialization's append logic is idempotent — on a field
list that already contains the sortable field, every one of the four
append steps (`fields`, `list_display`, `list_editable`, `exclude`)
returns the list unchanged, so no duplicate is ever appended. -/
theorem init_append_idempotent (s : String) (l : List String) (h : s ∈ l) :
    initFieldsTabular s (some l) = l ∧
    initListDisplay s (some l) = some l ∧
    initListEditable s (some l) = l ∧
    initExclude s (some l) = l := by
  simp [initFieldsTabular, initListDisplay, initListEditable, initExclude, h]

/-- Witness for C8 on the one-element list already holding `order`. -/
theorem init_append_idempotent_witness :
    "order" ∈ ["order"] ∧
    initFieldsTabular "order" (some ["order"]) = ["order"] ∧
    initListDisplay "order" (some ["order"]) = some ["order"] ∧
    initListEditable "order" (some ["order"]) = ["order"] ∧
    initExclude "order" (some ["order"]) = ["order"] :=
  ⟨by decide,
    (init_append_idempotent "order" ["order"] (by decide)).1,
    (init_append_idempotent "order" ["order"] (by decide)).2.1,
    (init_append_idempotent "order" ["order"] (by decide)).2.2.1,
    (init_append_idempotent "order" ["order"] (by decide)).2.2.2⟩

/-- C9: after `SortableModelAdmin.__init__`, the sortable field is a
member of both `list_editable` and `exclude`, for every initial value of
those attributes including `None` and the empty list. -/
theorem sortable_in_list_editable_and_exclude (s : String)
    (le ex : Option (List String)) :
    s ∈ initListEditable s le ∧ s ∈ initExclude s ex := by
  constructor
  · by_cases h : s ∈ le.getD []
    · simp [initListEditable, h]
    · simp [initListEditable, h]
  · by_cases h : s ∈ ex.getD []
    · simp [initExclude, h]
    · simp [initExclude, h]

/-- Helper: an unguarded append step (`if s not in l: l = l + [s]`) on a
list holding `s` at most once yields a list holding `s` exactly once. -/
theorem count_after_unguarded_append (s : String) (l : List String)
    (hc : l.count s ≤ 1) :
    (if s ∉ l then l ++ [s] else l).count s = 1 := by
  by_cases h : s ∈ l
  · have h1 : 0 < l.count s := List.count_pos_iff.mpr h
    simp only [h, not_true_eq_false, if_false]
    omega
  · have h0 : l.count s = 0 := List.count_eq_zero.mpr h
    simp [h, List.count_append, h0]

/-- C3 counterexample: a tabular inline whose `fields` list is initially
empty keeps an empty list — the guard `if self.fields and ...` skips the
append, so the sortable field is not contained (count 0, not 1). -/
theorem sortable_field_lists_counterexample :
    ¬ (initFieldsTabular "order" (some [])).count "order" = 1 := by
  decide

/-- C3 amended: after initialization, `fields` (tabular inline) and
`list_display` contain the sortable field exactly once provided they
were non-empty and contained it at most once beforehand; `list_editable`
contains it exactly once for every initial value (including `None` and
the empty list) that contained it at most once. -/
theorem sortable_field_lists_contain_once (s : String) (fl ld : List String)
    (le : Option (List String))
    (hfl : fl ≠ []) (hflc : fl.count s ≤ 1)
    (hld : ld ≠ []) (hldc : ld.count s ≤ 1)
    (hlec : (le.getD []).count s ≤ 1) :
    (initFieldsTabular s (some fl)).count s = 1 ∧
    ((initListDisplay s (some ld)).getD []).count s = 1 ∧
    (initListEditable s le).count s = 1 := by
  refine ⟨?_, ?_, ?_⟩
  · by_cases h : s ∈ fl
    · have h1 : 0 < fl.count s := List.count_pos_iff.mpr h
      simp [initFieldsTabular, h]
      omega
    · have h0 : fl.count s = 0 := List.count_eq_zero.mpr h
      simp [initFieldsTabular, hfl, h, List.count_append, h0]
  · by_cases h : s ∈ ld
    · have h1 : 0 < ld.count s := List.count_pos_iff.mpr h
      simp [initListDisplay, h]
      omega
    · have h0 : ld.count s = 0 := List.count_eq_zero.mpr h
      simp [initListDisplay, hld, h, List.count_append, h0]
  · simpa [initListEditable] using
      count_after_unguarded_append s (le.getD []) hlec

/-- Witness for the amended C3 with disjoint one-element lists and a
`None` initial `list_editable`. -/
theorem sortable_field_lists_contain_once_witness :
    (["a"] : List String) ≠ [] ∧ (["a"] : List String).count "order" ≤ 1 ∧
    (["b"] : List String) ≠ [] ∧ (["b"] : List String).count "order" ≤ 1 ∧
    (((none : Option (List String)).getD []).count "order" ≤ 1) ∧
    ((initFieldsTabular "order" (some ["a"])).count "order" = 1 ∧
     ((initListDisplay "order" (some ["b"])).getD []).count "order" = 1 ∧
     (initListEditable "order" none).count "order" = 1) :=
  ⟨by decide, by decide, by decide, by decide, by decide,
    sortable_field_lists_contain_once "order" ["a"] ["b"] none
      (by decide) (by decide) (by decide) (by decide) (by decide)⟩

/-- Helper: once `sortable_added` is set, the remaining groups only ever
have the sortable field removed; when each held it at most once, none of
the processed groups holds it at all. -/
theorem processFieldsets_added_removes (s : String) (t : List Fieldset) :
    (∀ g ∈ t, g.fields.count s ≤ 1) →
    ∀ g ∈ processFieldsets s true t, s ∉ g.fields := by
  induction t with
  | nil => intro _; simp [processFieldsets]
  | cons fs rest ih =>
    intro hc g hg
    simp only [processFieldsets, if_true, List.mem_cons] at hg
    rcases hg with hg | hg
    · subst hg
      by_cases h : s ∈ fs.fields
      · have h1 : 0 < fs.fields.count s := List.count_pos_iff.mpr h
        have h2 : fs.fields.count s ≤ 1 := hc fs (by simp)
        have h3 : (fs.fields.erase s).count s = 0 := by
          rw [List.count_erase_self]
          omega
        simp only [h, if_true]
        exact List.count_eq_zero.mp h3
      · simp [h]
    · exact ih (fun g hg' => hc g (by simp [hg'])) g hg

/-- Helper: the total occurrence count over the groups processed with
`sortable_added` set is zero. -/
theorem countField_processFieldsets_added (s : String) (t : List Fieldset)
    (hc : ∀ g ∈ t, g.fields.count s ≤ 1) :
    countField s (processFieldsets s true t) = 0 := by
  unfold countField
  apply List.sum_eq_zero
  intro x hx
  rcases List.mem_map.mp hx with ⟨g, hg, rfl⟩
  exact List.count_eq_zero.mpr (processFieldsets_added_removes s t hc g hg)

/-- C4 counterexample: a group holding the sortable field twice defeats
the claim — `list.remove` deletes only the first occurrence, and the
subsequent `insert(0, ...)` restores it, so the result holds the field
twice, not exactly once. -/
theorem get_fieldsets_counterexample :
    ¬ countField "order"
        (get_fieldsets "order" [⟨none, ["order", "order"]⟩]) = 1 := by
  decide

/-- C4 amended: over a non-empty fieldset list in which every group's
fields hold the sortable field at most once, `get_fieldsets` yields the
sortable field exactly once in total, as the first field of the first
group, and removed from every other group. -/
theorem get_fieldsets_sortable_first (s : String) (f : Fieldset)
    (t : List Fieldset)
    (hcf : f.fields.count s ≤ 1) (hct : ∀ g ∈ t, g.fields.count s ≤ 1) :
    countField s (get_fieldsets s (f :: t)) = 1 ∧
    (get_fieldsets s (f :: t)).headI.fields.headI = s ∧
    ∀ g ∈ (get_fieldsets s (f :: t)).tail, s ∉ g.fields := by
  have hrest := countField_processFieldsets_added s t hct
  have hf1 : (if s ∈ f.fields then f.fields.erase s else f.fields).count s
      = 0 := by
    by_cases h : s ∈ f.fields
    · have h1 : 0 < f.fields.count s := List.count_pos_iff.mpr h
      simp only [h, if_true, List.count_erase_self]
      omega
    · simp only [h, if_false]
      exact List.count_eq_zero.mpr h
  refine ⟨?_, rfl, ?_⟩
  · show countField s
      ({ f with fields := s :: _ } :: processFieldsets s true t) = 1
    simp only [countField, List.map_cons, List.sum_cons] at hrest ⊢
    rw [List.count_cons_self, hf1]
    omega
  · exact processFieldsets_added_removes s t hct

/-- Witness for the amended C4: two groups, the sortable field buried in
the first and also present in the second; afterwards it leads the first
group and is gone from the second. -/
theorem get_fieldsets_sortable_first_witness :
    (Fieldset.mk (some "g1") ["a", "order"]).fields.count "order" ≤ 1 ∧
    (∀ g ∈ [Fieldset.mk none ["order", "b"]], g.fields.count "order" ≤ 1) ∧
    (countField "order" (get_fieldsets "order"
        [⟨some "g1", ["a", "order"]⟩, ⟨none, ["order", "b"]⟩]) = 1 ∧
     (get_fieldsets "order"
        [⟨some "g1", ["a", "order"]⟩, ⟨none, ["order", "b"]⟩]).headI.fields.headI
        = "order" ∧
     ∀ g ∈ (get_fieldsets "order"
        [⟨some "g1", ["a", "order"]⟩, ⟨none, ["order", "b"]⟩]).tail,
        "order" ∉ g.fields) :=
  ⟨by decide, by decide,
    get_fieldsets_sortable_first "order" ⟨some "g1", ["a", "order"]⟩
      [⟨none, ["order", "b"]⟩] (by decide) (by decide)⟩

/-- C6: when an optional package is absent from `INSTALLED_APPS`, or
present but its import fails, module load completes (the function is
total) and neither patch is applied. -/
theorem optional_patches_noop (installed : List String) (cmsOk csOk : Bool)
    (hcms : "cms" ∉ installed ∨ cmsOk = false)
    (hcs : "content_status" ∉ installed ∨ csOk = false) :
    appliedPatches installed cmsOk csOk = (false, false) := by
  unfold appliedPatches
  rcases hcms with h | h <;> rcases hcs with h2 | h2 <;> simp [h, h2]

/-- Witness for C6: `cms` installed but failing to import, and
`content_status` not installed — no patch is applied. -/
theorem optional_patches_noop_witness :
    ("cms" ∉ ["cms", "django.contrib.admin"] ∨ false = false) ∧
    ("content_status" ∉ ["cms", "django.contrib.admin"] ∨ true = false) ∧
    appliedPatches ["cms", "django.contrib.admin"] false true
      = (false, false) :=
  ⟨Or.inr rfl, Or.inl (by decide),
    optional_patches_noop ["cms", "django.contrib.admin"] false true
      (Or.inr rfl) (Or.inl (by decide))⟩

/-- C10: for any number of calls, the stacked inline's
`formfield_for_dbfield` leaves the shared order widget's attrs at their
original value (class `hide input-mini suit-sortable`), because it only
mutates a deep copy; the widget it returns carries class
`hide input-mini suit-sortable suit-sortable-stacked` and rowclass
` suit-sortable-stacked-row`. -/
theorem stacked_widget_shared_preserved (n : Nat) :
    sharedAfterCalls n orderWidgetAttrs = orderWidgetAttrs ∧
    getAttr orderWidgetAttrs "class" = "hide input-mini suit-sortable" ∧
    getAttr (stackedFormfieldWidget (sharedAfterCalls n orderWidgetAttrs)).1
        "class" = "hide input-mini suit-sortable suit-sortable-stacked" ∧
    getAttr (stackedFormfieldWidget (sharedAfterCalls n orderWidgetAttrs)).1
        "rowclass" = " suit-sortable-stacked-row" := by
  have hsh : sharedAfterCalls n orderWidgetAttrs = orderWidgetAttrs := by
    induction n with
    | zero => rfl
    | succ k ih => exact ih
  rw [hsh]
  exact ⟨rfl, rfl, rfl, rfl⟩

end Suit
